import Mathlib

/-!
# Expense Tracker: budget-consistency and analytics logic

A shallow embedding of the budget-consistency and analytics aggregation
logic of the Expense_Tracker repository:

* `src/unnamed/part_004` (Budget mongoose model): the `remaining`,
  `spendingPercentage` and `status` virtuals;
* `src/unnamed/part_005` (Expense mongoose model): schema-level
  validation (category enum, 0.01 ≤ amount ≤ 1,000,000, description
  ≤ 200 chars);
* `src/backend/middleware/auth.js` (second concatenated file, the
  expense routes): POST /expenses, PUT /expenses/:id,
  DELETE /expenses/:id and their budget `$inc` side effects;
* `src/backend/routes/budget.js`: GET /budget/history and the
  GET /analytics/summary month-over-month comparison block.

Modelling conventions:

* Money amounts are `ℚ` (JS numbers used as decimals).
* Calendar months are `ℤ` absolute month indices (`12*year + month0`).
  JS `new Date(y, m, 1)` normalises out-of-range month arguments by
  rolling years, which is exactly `ℤ` arithmetic on this index, and the
  handlers only ever read a date through its `YYYY-MM` month key.
* The Budget collection, restricted to one user, is a map from month
  index to an optional row (`userId` scoping is common to every query
  and carries no logic, so a single user is modelled).
* The Expense collection, restricted to one user, is a map from a
  numeric id to an optional record.
* Mongo `findOneAndUpdate` with `$inc` and `upsert: true` either adds
  to the existing row's `spent` or inserts a fresh row; on insert the
  `$inc` target starts from the schema default `spent = 0` and the
  untouched numeric `limit` field is the absent/zero value `0`.
* `Math.round x` is `⌊x + 1/2⌋` for every real `x`, which is Mathlib's
  `round`.
-/

/-- The closed category enumeration, duplicated in the route validators
(`auth.js`) and the Expense schema (`part_005`). -/
def categories : List String :=
  ["Food & Dining", "Transportation", "Shopping", "Entertainment",
   "Healthcare", "Education", "Housing", "Utilities", "Insurance",
   "Travel", "Other"]

/-- One Budget row (`part_004`): `limit` and `spent` are the stored
numeric fields; `remaining`, `spendingPercentage`, `status` are virtuals. -/
structure Budget where
  limit : ℚ
  spent : ℚ
deriving DecidableEq

/-- `budgetSchema.virtual('remaining')`: `Math.max(0, this.limit - this.spent)`. -/
def Budget.remaining (b : Budget) : ℚ := max 0 (b.limit - b.spent)

/-- `budgetSchema.virtual('spendingPercentage')`: `0` when `limit === 0`,
else `Math.round((spent / limit) * 100)`. -/
def Budget.spendingPercentage (b : Budget) : ℤ :=
  if b.limit = 0 then 0 else round (b.spent / b.limit * 100)

/-- `budgetSchema.virtual('status')`: danger at ≥90%, warning at ≥80%,
else safe. -/
def Budget.status (b : Budget) : String :=
  if 90 ≤ b.spendingPercentage then "danger"
  else if 80 ≤ b.spendingPercentage then "warning"
  else "safe"

/-- The per-user Budget collection: at most one row per month
(the `{userId, month}` unique index). -/
abbrev BudgetStore := ℤ → Option Budget

/-- `Budget.findOneAndUpdate({userId, month}, {$inc: {spent: delta}},
{upsert: true})`: add `delta` to the row's `spent`, inserting a row with
`limit = 0` and `spent = 0 + delta` when none exists. -/
def upsertInc (s : BudgetStore) (m : ℤ) (delta : ℚ) : BudgetStore :=
  fun m2 =>
    if m2 = m then
      match s m with
      | some b => some { b with spent := b.spent + delta }
      | none => some { limit := 0, spent := delta }
    else s m2

/-- `Budget.findOneAndUpdate({userId, month}, {$inc: {spent: delta}})`
with NO `upsert` option (the DELETE /expenses/:id handler): add `delta`
to the row's `spent` when the row exists, otherwise match nothing and
change nothing. -/
def plainInc (s : BudgetStore) (m : ℤ) (delta : ℚ) : BudgetStore :=
  fun m2 =>
    if m2 = m then
      match s m with
      | some b => some { b with spent := b.spent + delta }
      | none => none
    else s m2

/-- One budget `$inc` emitted by an expense mutation: POST and PUT use
the upserting form, DELETE uses the plain form. -/
inductive IncOp where
  | upsert (m : ℤ) (delta : ℚ)
  | plain (m : ℤ) (delta : ℚ)
deriving DecidableEq

/-- Run one increment against the Budget collection. -/
def IncOp.apply (op : IncOp) (s : BudgetStore) : BudgetStore :=
  match op with
  | .upsert m d => upsertInc s m d
  | .plain m d => plainInc s m d

/-- The month an increment targets. -/
def IncOp.month : IncOp → ℤ
  | .upsert m _ => m
  | .plain m _ => m

/-- The signed delta an increment carries. -/
def IncOp.delta : IncOp → ℚ
  | .upsert _ d => d
  | .plain _ d => d

/-- Run a sequence of increments in order. -/
def applyIncOps (s : BudgetStore) (l : List IncOp) : BudgetStore :=
  l.foldl (fun s2 op => op.apply s2) s

/-- One Expense record (`part_005`), with the date abstracted to its
calendar month: the handlers read a date only through
`getFullYear()-getMonth()` month keys. -/
structure Expense where
  category : String
  amount : ℚ
  month : ℤ
  description : Option String
deriving DecidableEq

/-- The per-user Expense collection, keyed by record id. -/
abbrev ExpenseStore := ℕ → Option Expense

/-- The persistence state the expense routes touch. -/
structure St where
  expenses : ExpenseStore
  budgets : BudgetStore

/-- The optional-description validator shared by POST and PUT:
`body('description').optional().trim().isLength({max: 200})`. -/
def descriptionOk : Option String → Bool
  | none => true
  | some d => d.length ≤ 200

/-- The express-validator chain of POST /expenses, collecting EVERY
failed validator's message (`validationResult` is not fail-fast).
The route checks only `isIn(categories)`, `isFloat({min: 0.01})` and
the description length: it has no upper bound on `amount`.  The
optional ISO-date check is abstracted away with the date itself. -/
def addValidationErrors (category : String) (amount : ℚ)
    (descr : Option String) : List String :=
  (if categories.contains category then [] else ["Please select a valid category"]) ++
  (if 1/100 ≤ amount then [] else ["Amount must be a positive number"]) ++
  (if descriptionOk descr then [] else ["Description cannot exceed 200 characters"])

/-- The express-validator chain of PUT /expenses/:id: same checks, every
field optional. -/
def updateValidationErrors (category : Option String) (amount : Option ℚ)
    (descr : Option String) : List String :=
  (match category with
   | none => []
   | some c => if categories.contains c then [] else ["Please select a valid category"]) ++
  (match amount with
   | none => []
   | some a => if 1/100 ≤ a then [] else ["Amount must be a positive number"]) ++
  (if descriptionOk descr then [] else ["Description cannot exceed 200 characters"])

/-- Mongoose schema validation of an Expense document (`part_005`), run
by `expense.save()` and by `findByIdAndUpdate(..., {runValidators: true})`:
category in the enum, `0.01 ≤ amount ≤ 1000000`, description ≤ 200. -/
def expenseSchemaValid (e : Expense) : Bool :=
  categories.contains e.category && decide ((1:ℚ)/100 ≤ e.amount) &&
    decide (e.amount ≤ 1000000) && descriptionOk e.description

/-- Outcome of POST /expenses. -/
inductive AddResult where
  | badRequest (errors : List String)
  | serverError
  | created (e : Expense)
deriving DecidableEq

/-- POST /expenses: route validation (400 with the full error list on
failure), then `expense.save()` — a schema-validation failure there
throws, is caught, and answers 500 with nothing persisted — then the
upserting `$inc` of the expense's month. `date` defaults to now. -/
def addExpense (st : St) (newId : ℕ) (category : String) (amount : ℚ)
    (dateMonth : Option ℤ) (nowMonth : ℤ) (descr : Option String) :
    AddResult × St :=
  let errors := addValidationErrors category amount descr
  if errors ≠ [] then (.badRequest errors, st)
  else
    let e : Expense :=
      { category := category, amount := amount,
        month := dateMonth.getD nowMonth, description := descr }
    if expenseSchemaValid e then
      let st1 : St :=
        { st with expenses := fun i => if i = newId then some e else st.expenses i }
      (.created e, { st1 with budgets := upsertInc st1.budgets e.month amount })
    else (.serverError, st)

/-- The document `findByIdAndUpdate(id, updateData)` produces: each
field supplied in `updateData` replaces the stored one, absent fields
are kept. -/
def applyUpdate (e : Expense) (newCategory : Option String)
    (newAmount : Option ℚ) (newDateMonth : Option ℤ)
    (newDescr : Option String) : Expense :=
  { category := newCategory.getD e.category
    amount := newAmount.getD e.amount
    month := newDateMonth.getD e.month
    description := newDescr.orElse fun _ => e.description }

/-- Outcome of PUT /expenses/:id. -/
inductive UpdResult where
  | badRequest (errors : List String)
  | notFound
  | serverError
  | ok (e : Expense)
deriving DecidableEq

/-- PUT /expenses/:id: route validation, 404 when the expense is absent,
`newAmount = updateData.amount || oldAmount` (a validated amount is
≥ 0.01, never the falsy 0, so `||` is `Option.getD`),
`amountDifference = newAmount - oldAmount`, write through
`findByIdAndUpdate(..., {runValidators: true})` (a validator failure
throws → 500, nothing changed), then — only when `amountDifference ≠ 0`
— the upserting `$inc` of the UPDATED date's month. -/
def updateExpense (st : St) (id : ℕ) (newCategory : Option String)
    (newAmount : Option ℚ) (newDateMonth : Option ℤ)
    (newDescr : Option String) : UpdResult × St :=
  let errors := updateValidationErrors newCategory newAmount newDescr
  if errors ≠ [] then (.badRequest errors, st)
  else
    match st.expenses id with
    | none => (.notFound, st)
    | some e =>
      let amountDifference := newAmount.getD e.amount - e.amount
      let updated : Expense :=
        applyUpdate e newCategory newAmount newDateMonth newDescr
      if expenseSchemaValid updated then
        let st1 : St :=
          { st with expenses := fun i => if i = id then some updated else st.expenses i }
        if amountDifference ≠ 0 then
          (.ok updated,
           { st1 with budgets := upsertInc st1.budgets updated.month amountDifference })
        else (.ok updated, st1)
      else (.serverError, st)

/-- Outcome of DELETE /expenses/:id. -/
inductive DelResult where
  | notFound
  | ok
deriving DecidableEq

/-- DELETE /expenses/:id: 404 when absent; otherwise remove the record
and apply the NON-upserting `$inc` of `-amount` to the expense's month. -/
def deleteExpense (st : St) (id : ℕ) : DelResult × St :=
  match st.expenses id with
  | none => (.notFound, st)
  | some e =>
    let st1 : St :=
      { st with expenses := fun i => if i = id then none else st.expenses i }
    (.ok, { st1 with budgets := plainInc st1.budgets e.month (-e.amount) })

/-- One entry of the GET /budget/history response (`budget.js` 141-212):
the stored row's fields and virtuals when the row is present, else the
synthesized default object. -/
structure HistoryEntry where
  month : ℤ
  limit : ℚ
  spent : ℚ
  remaining : ℚ
  spendingPercentage : ℤ
  status : String
deriving DecidableEq

/-- The `budgetHistory` element for one month: the stored row serialised
with its virtuals, or the literal default
`{limit: 0, spent: 0, remaining: 0, spendingPercentage: 0, status: 'safe'}`. -/
def historyEntry (s : BudgetStore) (m : ℤ) : HistoryEntry :=
  match s m with
  | some b =>
    { month := m, limit := b.limit, spent := b.spent,
      remaining := b.remaining, spendingPercentage := b.spendingPercentage,
      status := b.status }
  | none =>
    { month := m, limit := 0, spent := 0, remaining := 0,
      spendingPercentage := 0, status := "safe" }

/-- The month list of GET /budget/history: the loop
`for (i = 11; i >= 0; i--) push(month of new Date(y, mo - 1 - i, 1))`
pushes, oldest first, the 11 months before the current one and then the
current one (JS Date normalises the month argument over year bounds,
i.e. plain `ℤ` arithmetic on the absolute month index). -/
def historyMonths (currentMonth : ℤ) : List ℤ :=
  (List.range 12).map (fun (j : ℕ) => currentMonth - 11 + (j : ℤ))

/-- GET /budget/history: map every one of the 12 months to its entry,
stored rows looked up by month key, missing months synthesized. -/
def budgetHistory (s : BudgetStore) (currentMonth : ℤ) : List HistoryEntry :=
  (historyMonths currentMonth).map (historyEntry s)

/-- The `comparison` object of the GET /analytics/summary response. -/
structure Comparison where
  previousMonth : ℚ
  changeAmount : ℚ
  changePercentage : ℚ
  trend : String
deriving DecidableEq

/-- The month-over-month comparison block of GET /analytics/summary
(`budget.js` analytics router, summary handler): `changePercentage` is
`(curr - prev) / prev * 100` when `prev > 0` and `0` otherwise; the
response rounds it to 2 decimals via `Math.round(cp * 100) / 100`, and
derives `trend` from the UNROUNDED value's sign. -/
def summaryComparison (currentMonthTotal previousMonthTotal : ℚ) : Comparison :=
  let changePercentage : ℚ :=
    if 0 < previousMonthTotal then
      (currentMonthTotal - previousMonthTotal) / previousMonthTotal * 100
    else 0
  { previousMonth := previousMonthTotal
    changeAmount := currentMonthTotal - previousMonthTotal
    changePercentage := (round (changePercentage * 100) : ℤ) / 100
    trend :=
      if 0 < changePercentage then "increase"
      else if changePercentage < 0 then "decrease"
      else "stable" }

/-! ## Shared helper lemmas -/

/-- Unfolding lemma: the `trend` field of the summary comparison. -/
theorem summaryComparison_trend_def (curr prev : ℚ) :
    (summaryComparison curr prev).trend =
      (if 0 < (if 0 < prev then (curr - prev) / prev * 100 else 0) then "increase"
       else if (if 0 < prev then (curr - prev) / prev * 100 else 0) < 0 then "decrease"
       else "stable") := rfl

/-- Unfolding lemma: the `changePercentage` field of the summary comparison. -/
theorem summaryComparison_changePercentage_def (curr prev : ℚ) :
    (summaryComparison curr prev).changePercentage =
      ((round ((if 0 < prev then (curr - prev) / prev * 100 else 0) * 100) : ℤ) : ℚ) / 100 := rfl

/-- The history list always has 12 elements. -/
theorem budgetHistory_length (s : BudgetStore) (current : ℤ) :
    (budgetHistory s current).length = 12 := by
  unfold budgetHistory historyMonths
  rw [List.length_map, List.length_map, List.length_range]

/-- The j-th history element is the entry of month `current - 11 + j`. -/
theorem budgetHistory_get (s : BudgetStore) (current : ℤ) (j : ℕ)
    (hj : j < (budgetHistory s current).length) :
    (budgetHistory s current).get ⟨j, hj⟩ = historyEntry s (current - 11 + j) := by
  unfold budgetHistory historyMonths
  simp only [List.get_eq_getElem, List.getElem_map, List.getElem_range]

/-- A run of same-month increments over a present row adds the sum of
the deltas to `spent` (and both increment forms behave alike then). -/
theorem applyIncOps_adds_sum (l : List IncOp) :
    ∀ (s : BudgetStore) (b : Budget) (m : ℤ), s m = some b →
      (∀ op ∈ l, op.month = m) →
      applyIncOps s l m = some { b with spent := b.spent + (l.map IncOp.delta).sum } := by
  induction l with
  | nil =>
    intro s b m hb _
    simpa [applyIncOps] using hb
  | cons op l ih =>
    intro s b m hb hm
    have hopm : op.month = m := hm op (List.mem_cons_self op l)
    have hstep : op.apply s m = some { b with spent := b.spent + op.delta } := by
      cases op with
      | upsert m1 d =>
        simp only [IncOp.month] at hopm
        subst hopm
        simp [IncOp.apply, IncOp.delta, upsertInc, hb]
      | plain m1 d =>
        simp only [IncOp.month] at hopm
        subst hopm
        simp [IncOp.apply, IncOp.delta, plainInc, hb]
    have hrest := ih (op.apply s) { b with spent := b.spent + op.delta } m hstep
      (fun o ho => hm o (List.mem_cons_of_mem op ho))
    have hcons : applyIncOps s (op :: l) = applyIncOps (op.apply s) l := rfl
    rw [hcons, hrest]
    simp [add_assoc]

/-! ## Claim theorems -/

/-- Claim C1: for every valid Add input, the created expense record's
stored amount equals the input amount, and the Budget row for the month
of the expense's date has its `spent` field increased by exactly that
amount, the row being created with `limit = 0` when absent. -/
theorem add_stores_amount_and_increments_month_budget
    (st : St) (newId : ℕ) (category : String) (amount : ℚ)
    (dateMonth : Option ℤ) (nowMonth : ℤ) (descr : Option String)
    (hv : addValidationErrors category amount descr = [])
    (hok : expenseSchemaValid
      { category := category, amount := amount,
        month := dateMonth.getD nowMonth, description := descr } = true) :
    ∃ e : Expense,
      (addExpense st newId category amount dateMonth nowMonth descr).1 = .created e ∧
      e.amount = amount ∧
      (addExpense st newId category amount dateMonth nowMonth descr).2.expenses newId = some e ∧
      (addExpense st newId category amount dateMonth nowMonth descr).2.budgets (dateMonth.getD nowMonth)
        = some (match st.budgets (dateMonth.getD nowMonth) with
            | some b => { b with spent := b.spent + amount }
            | none => { limit := 0, spent := amount }) := by
  refine ⟨⟨category, amount, dateMonth.getD nowMonth, descr⟩, ?_, rfl, ?_, ?_⟩
  · simp [addExpense, hv, hok]
  · simp [addExpense, hv, hok]
  · cases h : st.budgets (dateMonth.getD nowMonth) <;>
      simp [addExpense, hv, hok, upsertInc, h]

/-- Witness for C1: adding amount 50 on month 5 to an empty store. -/
theorem add_stores_amount_witness :
    ∃ e : Expense,
      (addExpense ⟨fun _ => none, fun _ => none⟩ 0 "Food & Dining" 50 (some 5) 0 none).1
        = .created e ∧
      e.amount = 50 ∧
      (addExpense ⟨fun _ => none, fun _ => none⟩ 0 "Food & Dining" 50 (some 5) 0 none).2.expenses 0
        = some e ∧
      (addExpense ⟨fun _ => none, fun _ => none⟩ 0 "Food & Dining" 50 (some 5) 0 none).2.budgets 5
        = some (match (none : Option Budget) with
            | some b => { b with spent := b.spent + 50 }
            | none => { limit := 0, spent := 50 }) :=
  add_stores_amount_and_increments_month_budget
    ⟨fun _ => none, fun _ => none⟩ 0 "Food & Dining" 50 (some 5) 0 none
    (by norm_num [addValidationErrors, categories, descriptionOk])
    (by norm_num [expenseSchemaValid, categories, descriptionOk])

/-- Claim C2: on Update, the `amountDifference` delta is applied (by the
upserting increment) to the month of the UPDATED date only; when the
update moves the expense to a different month, the old month's Budget
row is left entirely unchanged. -/
theorem update_applies_delta_to_updated_month_only
    (st : St) (id : ℕ) (e : Expense) (newCategory : Option String)
    (newAmount : Option ℚ) (newDateMonth : Option ℤ) (newDescr : Option String)
    (he : st.expenses id = some e)
    (hv : updateValidationErrors newCategory newAmount newDescr = [])
    (hok : expenseSchemaValid
      (applyUpdate e newCategory newAmount newDateMonth newDescr) = true)
    (hm : newDateMonth.getD e.month ≠ e.month) :
    ((updateExpense st id newCategory newAmount newDateMonth newDescr).2.budgets e.month
       = st.budgets e.month) ∧
    (∀ m2 : ℤ, m2 ≠ newDateMonth.getD e.month →
      (updateExpense st id newCategory newAmount newDateMonth newDescr).2.budgets m2
        = st.budgets m2) ∧
    (newAmount.getD e.amount - e.amount ≠ 0 →
      (updateExpense st id newCategory newAmount newDateMonth newDescr).2.budgets
          (newDateMonth.getD e.month)
        = some (match st.budgets (newDateMonth.getD e.month) with
            | some b => { b with spent := b.spent + (newAmount.getD e.amount - e.amount) }
            | none => { limit := 0, spent := newAmount.getD e.amount - e.amount })) := by
  have hall : ∀ m2 : ℤ, m2 ≠ newDateMonth.getD e.month →
      (updateExpense st id newCategory newAmount newDateMonth newDescr).2.budgets m2
        = st.budgets m2 := by
    intro m2 hm2
    simp only [applyUpdate] at hok
    by_cases hd : newAmount.getD e.amount - e.amount = 0
    · simp [updateExpense, applyUpdate, hv, he, hok, hd]
    · simp [updateExpense, applyUpdate, hv, he, hok, hd, upsertInc, hm2]
  refine ⟨hall e.month (Ne.symm hm), hall, ?_⟩
  intro hd
  simp only [applyUpdate] at hok
  cases h : st.budgets (newDateMonth.getD e.month) <;>
    simp [updateExpense, applyUpdate, hv, he, hok, hd, upsertInc, h]

/-- Witness for C2: updating an expense of amount 30 in month 5 to
amount 50 in month 7 with an empty Budget collection. -/
theorem update_applies_delta_witness :
    ((updateExpense
        ⟨fun i => if i = 0 then some ⟨"Other", 30, 5, none⟩ else none, fun _ => none⟩
        0 none (some 50) (some 7) none).2.budgets 5 = none) ∧
    (∀ m2 : ℤ, m2 ≠ 7 →
      (updateExpense
        ⟨fun i => if i = 0 then some ⟨"Other", 30, 5, none⟩ else none, fun _ => none⟩
        0 none (some 50) (some 7) none).2.budgets m2 = none) ∧
    ((50 : ℚ) - 30 ≠ 0 →
      (updateExpense
        ⟨fun i => if i = 0 then some ⟨"Other", 30, 5, none⟩ else none, fun _ => none⟩
        0 none (some 50) (some 7) none).2.budgets 7
        = some { limit := 0, spent := 50 - 30 }) := by
  have h := update_applies_delta_to_updated_month_only
    ⟨fun i => if i = 0 then some ⟨"Other", 30, 5, none⟩ else none, fun _ => none⟩
    0 ⟨"Other", 30, 5, none⟩ none (some 50) (some 7) none
    rfl
    (by norm_num [updateValidationErrors, descriptionOk])
    (by norm_num [expenseSchemaValid, applyUpdate, categories, descriptionOk])
    (by norm_num)
  simpa using h

/-- Claim C10: an Update whose supplied fields leave the amount
unchanged (amount absent, or equal to the stored amount) leaves every
Budget row untouched and creates none — even when the update moves the
expense's date to a different month, and in every outcome branch of the
handler. -/
theorem update_without_amount_change_budget_untouched
    (st : St) (id : ℕ) (newCategory : Option String) (newAmount : Option ℚ)
    (newDateMonth : Option ℤ) (newDescr : Option String)
    (hamt : ∀ e : Expense, st.expenses id = some e →
      newAmount = none ∨ newAmount = some e.amount) :
    ∀ m : ℤ, (updateExpense st id newCategory newAmount newDateMonth newDescr).2.budgets m
      = st.budgets m := by
  intro m
  by_cases hv : updateValidationErrors newCategory newAmount newDescr = []
  · cases he : st.expenses id with
    | none => simp [updateExpense, hv, he]
    | some e =>
      have hd : newAmount.getD e.amount - e.amount = 0 := by
        rcases hamt e he with h | h <;> simp [h]
      by_cases hok : expenseSchemaValid
        (applyUpdate e newCategory newAmount newDateMonth newDescr) = true
      · simp [updateExpense, hv, he, hok, hd]
      · simp [updateExpense, hv, he, hok]
  · simp [updateExpense, hv]

/-- Witness for C10: a date-only update (month 5 to month 7) of an
expense whose month-5 Budget row exists; the row is untouched. -/
theorem update_without_amount_change_witness :
    (updateExpense
        ⟨fun i => if i = 0 then some ⟨"Other", 30, 5, none⟩ else none,
         fun m => if m = 5 then some ⟨100, 30⟩ else none⟩
        0 none none (some 7) none).2.budgets 9000
      = (fun m : ℤ => if m = 5 then some (⟨100, 30⟩ : Budget) else none) 9000 :=
  update_without_amount_change_budget_untouched
    ⟨fun i => if i = 0 then some ⟨"Other", 30, 5, none⟩ else none,
     fun m => if m = 5 then some ⟨100, 30⟩ else none⟩
    0 none none (some 7) none
    (fun _ _ => Or.inl rfl) 9000

/-- Counterexample to C3 as stated: deleting an existing expense of
amount 40 in month 5 while no Budget row exists for month 5 leaves the
Budget collection without a row for month 5 — the DELETE decrement has
no upsert option, so no row with limit 0 and spent -40 is created. -/
theorem delete_decrement_creates_no_row :
    (deleteExpense ⟨fun i => if i = 0 then some ⟨"Other", 40, 5, none⟩ else none,
                    fun _ => none⟩ 0).1 = .ok ∧
    (deleteExpense ⟨fun i => if i = 0 then some ⟨"Other", 40, 5, none⟩ else none,
                    fun _ => none⟩ 0).2.budgets 5 = none := by
  constructor <;> norm_num [deleteExpense, plainInc]

/-- Claim C3 (amended): the Add and Update increments upsert — they add
the delta to `spent`, creating the row with limit 0 when absent — but
the Delete decrement updates `spent` only when the row already exists
and creates nothing when it is absent. -/
theorem increments_upsert_except_delete
    (s : BudgetStore) (m : ℤ) (d : ℚ) (b : Budget) (st : St) (id : ℕ) (e : Expense)
    (he : st.expenses id = some e) :
    (s m = none → upsertInc s m d m = some { limit := 0, spent := d }) ∧
    (s m = some b → upsertInc s m d m = some { b with spent := b.spent + d }) ∧
    (st.budgets e.month = some b →
      (deleteExpense st id).2.budgets e.month = some { b with spent := b.spent - e.amount }) ∧
    (st.budgets e.month = none →
      (deleteExpense st id).2.budgets e.month = none) := by
  refine ⟨fun h => by simp [upsertInc, h], fun h => by simp [upsertInc, h],
    fun h => ?_, fun h => ?_⟩
  · simp [deleteExpense, he, plainInc, h, sub_eq_add_neg]
  · simp [deleteExpense, he, plainInc, h]

/-- Witness for C3 (amended) at month 5, delta 40, a concrete stored
expense of amount 40 and the row ⟨100, 10⟩. -/
theorem increments_upsert_except_delete_witness :
    (((fun _ => none) : BudgetStore) 5 = none →
      upsertInc (fun _ => none) 5 40 5 = some { limit := 0, spent := 40 }) ∧
    (((fun _ => none) : BudgetStore) 5 = some ⟨100, 10⟩ →
      upsertInc (fun _ => none) 5 40 5 = some { limit := 100, spent := 10 + 40 }) ∧
    ((⟨fun i => if i = 0 then some ⟨"Other", 40, 5, none⟩ else none,
       fun _ => none⟩ : St).budgets 5 = some ⟨100, 10⟩ →
      (deleteExpense ⟨fun i => if i = 0 then some ⟨"Other", 40, 5, none⟩ else none,
        fun _ => none⟩ 0).2.budgets 5 = some { limit := 100, spent := 10 - 40 }) ∧
    ((⟨fun i => if i = 0 then some ⟨"Other", 40, 5, none⟩ else none,
       fun _ => none⟩ : St).budgets 5 = none →
      (deleteExpense ⟨fun i => if i = 0 then some ⟨"Other", 40, 5, none⟩ else none,
        fun _ => none⟩ 0).2.budgets 5 = none) :=
  increments_upsert_except_delete (fun _ => none) 5 40 ⟨100, 10⟩
    ⟨fun i => if i = 0 then some ⟨"Other", 40, 5, none⟩ else none, fun _ => none⟩
    0 ⟨"Other", 40, 5, none⟩ rfl

/-- Counterexample to C4 as stated: Add with amount 2,000,000 (valid
category, empty description) passes the route validation — the route
has no amount upper bound — so the failure is the 500 server-error
answer from the schema check at save, not a 400 validation response;
the state is returned unchanged. -/
theorem add_over_limit_is_500_not_400 :
    (addExpense ⟨fun _ => none, fun _ => none⟩ 0 "Food & Dining" 2000000 none 0 none).1
      = .serverError ∧
    (∀ errs : List String,
      (addExpense ⟨fun _ => none, fun _ => none⟩ 0 "Food & Dining" 2000000 none 0 none).1
        ≠ .badRequest errs) ∧
    (addExpense ⟨fun _ => none, fun _ => none⟩ 0 "Food & Dining" 2000000 none 0 none).2
      = ⟨fun _ => none, fun _ => none⟩ := by
  have h : addExpense ⟨fun _ => none, fun _ => none⟩ 0 "Food & Dining" 2000000 none 0 none
      = (.serverError, ⟨fun _ => none, fun _ => none⟩) := by
    norm_num [addExpense, addValidationErrors, categories, descriptionOk, expenseSchemaValid]
  refine ⟨by rw [h], fun errs => by rw [h]; simp, by rw [h]⟩

/-- Claim C4 (amended): Add with amount over 1,000,000 (other fields
valid) fails — but as a 500 server error raised by the schema-level
maximum at save, not as a 400 ValidationError — and no expense record
is persisted and no budget increment occurs. -/
theorem add_over_limit_server_error_nothing_persisted
    (st : St) (newId : ℕ) (category : String) (amount : ℚ)
    (dateMonth : Option ℤ) (nowMonth : ℤ) (descr : Option String)
    (hc : categories.contains category = true)
    (hd : descriptionOk descr = true)
    (ha : 1000000 < amount) :
    addExpense st newId category amount dateMonth nowMonth descr = (.serverError, st) := by
  have hmem : category ∈ categories := by simpa using hc
  have h1 : (1:ℚ)/100 ≤ amount := by linarith
  have h2 : (100:ℚ)⁻¹ ≤ amount := by rw [inv_eq_one_div]; linarith
  have hv : addValidationErrors category amount descr = [] := by
    simp [addValidationErrors, hc, hd, h1, h2, hmem]
  have hn : ¬ (amount ≤ 1000000) := not_le.mpr ha
  have hs : expenseSchemaValid
      { category := category, amount := amount,
        month := dateMonth.getD nowMonth, description := descr } = false := by
    simp [expenseSchemaValid, hn]
  simp [addExpense, hv, hs]

/-- Witness for C4 (amended): the concrete 2,000,000 request. -/
theorem add_over_limit_server_error_witness :
    addExpense ⟨fun _ => none, fun _ => none⟩ 0 "Food & Dining" 2000000 none 0 none
      = (.serverError, ⟨fun _ => none, fun _ => none⟩) :=
  add_over_limit_server_error_nothing_persisted
    ⟨fun _ => none, fun _ => none⟩ 0 "Food & Dining" 2000000 none 0 none
    (by norm_num [categories]) rfl (by norm_num)

/-- Claim C5: for every Budget state, the derived `remaining` equals
`max 0 (limit - spent)` and is therefore never negative, however far
`spent` exceeds `limit`. -/
theorem remaining_is_clamped_and_nonneg (b : Budget) :
    b.remaining = max 0 (b.limit - b.spent) ∧ 0 ≤ b.remaining :=
  ⟨rfl, le_max_left 0 _⟩

/-- Claim C6: for every non-negative spent and limit, the derived
`spendingPercentage` is 0 when `limit = 0` and `round (spent/limit*100)`
otherwise. -/
theorem spendingPercentage_zero_or_rounded (b : Budget)
    ( _hs : 0 ≤ b.spent) ( _hl : 0 ≤ b.limit) :
    (b.limit = 0 → b.spendingPercentage = 0) ∧
    (b.limit ≠ 0 → b.spendingPercentage = round (b.spent / b.limit * 100)) := by
  refine ⟨fun h => ?_, fun h => ?_⟩ <;> simp [Budget.spendingPercentage, h]

/-- Witness for C6: spent 95 against limit 100. -/
theorem spendingPercentage_zero_or_rounded_witness :
    (Budget.mk 100 95).spendingPercentage = round ((95:ℚ) / 100 * 100) :=
  (spendingPercentage_zero_or_rounded ⟨100, 95⟩ (by norm_num) (by norm_num)).2 (by norm_num)

/-- Claim C7: the budget history always has exactly 12 entries, whose
months are the current month and the 11 preceding it in oldest-first
order, and every month without a stored row appears as a synthesized
entry with limit 0, spent 0 and status safe rather than being
omitted. -/
theorem history_is_twelve_trailing_months (s : BudgetStore) (current : ℤ) :
    (budgetHistory s current).length = 12 ∧
    ((budgetHistory s current).map HistoryEntry.month
      = (List.range 12).map (fun (j : ℕ) => current - 11 + (j : ℤ))) ∧
    (∀ j : ℕ, (hj : j < (budgetHistory s current).length) →
      s (current - 11 + j) = none →
      (budgetHistory s current).get ⟨j, hj⟩
        = { month := current - 11 + j, limit := 0, spent := 0, remaining := 0,
            spendingPercentage := 0, status := "safe" }) := by
  refine ⟨budgetHistory_length s current, ?_, ?_⟩
  · unfold budgetHistory historyMonths
    rw [List.map_map, List.map_map]
    refine List.map_congr_left fun j _ => ?_
    simp only [Function.comp_apply]
    cases h : s (current - 11 + (j : ℤ)) <;> simp [historyEntry, h]
  · intro j hj hnone
    rw [budgetHistory_get s current j hj]
    simp [historyEntry, hnone]

/-- Witness for C7: with no stored rows and current month 24, entry 0 is
the synthesized month 13. -/
theorem history_is_twelve_trailing_months_witness :
    (budgetHistory (fun _ => none) 24).get
        ⟨0, by rw [budgetHistory_length]; omega⟩
      = { month := 13, limit := 0, spent := 0, remaining := 0,
          spendingPercentage := 0, status := "safe" } := by
  have h := (history_is_twelve_trailing_months (fun _ => none) 24).2.2 0
    (by rw [budgetHistory_length]; omega) rfl
  simpa using h

/-- Counterexample to C8 as stated: with no Budget row present, the
Delete decrement and the Add increment do not commute — the permuted
sequences [plain -40, upsert +40] and [upsert +40, plain -40] at the
same month end with spent 40 and spent 0 respectively, although their
delta sum is 0 — so the final spent is not initial + sum independently
of order. -/
theorem increments_not_commutative_without_row :
    ([IncOp.plain 5 (-40), IncOp.upsert 5 40] : List IncOp).Perm
      [IncOp.upsert 5 40, IncOp.plain 5 (-40)] ∧
    (([IncOp.plain 5 (-40), IncOp.upsert 5 40] : List IncOp).map IncOp.delta).sum = 0 ∧
    applyIncOps (fun _ => none) [IncOp.plain 5 (-40), IncOp.upsert 5 40] 5
      = some { limit := 0, spent := 40 } ∧
    applyIncOps (fun _ => none) [IncOp.upsert 5 40, IncOp.plain 5 (-40)] 5
      = some { limit := 0, spent := 0 } ∧
    (40 : ℚ) ≠ 0 := by
  refine ⟨List.Perm.swap _ _ _, ?_, ?_, ?_, by norm_num⟩ <;>
    norm_num [applyIncOps, IncOp.apply, IncOp.delta, plainInc, upsertInc]

/-- Claim C8 (amended): when the (user, month) Budget row already
exists, any sequence of same-month expense-mutation increments (upsert
or plain) ends with spent = initial + sum of the signed deltas, and the
result is invariant under permutation of the sequence; without the row,
a leading Delete decrement is dropped (see the counterexample). -/
theorem increments_commute_on_existing_row
    (s : BudgetStore) (m : ℤ) (b : Budget) (l l2 : List IncOp)
    (hb : s m = some b) (hm : ∀ op ∈ l, op.month = m) (hp : l.Perm l2) :
    applyIncOps s l m = some { b with spent := b.spent + (l.map IncOp.delta).sum } ∧
    applyIncOps s l m = applyIncOps s l2 m := by
  have h1 := applyIncOps_adds_sum l s b m hb hm
  have hm2 : ∀ op ∈ l2, op.month = m := fun op ho => hm op (hp.mem_iff.mpr ho)
  have h2 := applyIncOps_adds_sum l2 s b m hb hm2
  have hsum : (l.map IncOp.delta).sum = (l2.map IncOp.delta).sum :=
    (hp.map IncOp.delta).sum_eq
  exact ⟨h1, by rw [h1, h2, hsum]⟩

/-- Witness for C8 (amended): row ⟨100, 10⟩ at month 5 and the two
orders of the +40 / -40 pair. -/
theorem increments_commute_witness :
    applyIncOps (fun m => if m = 5 then some ⟨100, 10⟩ else none)
        [IncOp.upsert 5 40, IncOp.plain 5 (-40)] 5
      = some { limit := 100,
               spent := 10 + ([IncOp.upsert 5 40, IncOp.plain 5 (-40)].map IncOp.delta).sum } ∧
    applyIncOps (fun m => if m = 5 then some ⟨100, 10⟩ else none)
        [IncOp.upsert 5 40, IncOp.plain 5 (-40)] 5
      = applyIncOps (fun m => if m = 5 then some ⟨100, 10⟩ else none)
          [IncOp.plain 5 (-40), IncOp.upsert 5 40] 5 :=
  increments_commute_on_existing_row
    (fun m => if m = 5 then some ⟨100, 10⟩ else none) 5 ⟨100, 10⟩
    [IncOp.upsert 5 40, IncOp.plain 5 (-40)]
    [IncOp.plain 5 (-40), IncOp.upsert 5 40]
    rfl
    (by intro op hop; simp only [List.mem_cons, List.not_mem_nil, or_false] at hop
        rcases hop with h | h <;> subst h <;> rfl)
    (List.Perm.swap _ _ _)

/-- Counterexample to C9 as stated: with a previous-month total of 0 and
a current-month total of 50 the current total exceeds the previous one,
yet the reported trend is "stable", not "increase", because the trend is
derived from changePercentage, which is defined as 0 whenever the
previous total is not positive. -/
theorem summary_trend_stable_when_prev_zero :
    (0 : ℚ) < 50 ∧
    (summaryComparison 50 0).trend = "stable" ∧
    (summaryComparison 50 0).trend ≠ "increase" := by
  have h : (summaryComparison 50 0).trend = "stable" := by
    rw [summaryComparison_trend_def]
    norm_num
  exact ⟨by norm_num, h, by rw [h]; decide⟩

/-- Claim C9 (amended): when the previous month's total is positive the
trend tag reports the direction of the month-over-month change
(increase iff current exceeds previous, decrease iff lower, stable iff
equal); when the previous total is 0 the trend is always "stable"
regardless of the current total; and the reported changePercentage is 0
when the previous total is 0, else (curr - prev)/prev*100 rounded to 2
decimals. -/
theorem summary_trend_follows_unrounded_sign
    (curr prev : ℚ) ( _hc : 0 ≤ curr) ( _hp : 0 ≤ prev) :
    (0 < prev →
      (((summaryComparison curr prev).trend = "increase" ↔ prev < curr) ∧
       ((summaryComparison curr prev).trend = "decrease" ↔ curr < prev) ∧
       ((summaryComparison curr prev).trend = "stable" ↔ curr = prev))) ∧
    (prev = 0 → (summaryComparison curr prev).trend = "stable") ∧
    ((summaryComparison curr prev).changePercentage
      = if 0 < prev then ((round ((curr - prev) / prev * 100 * 100) : ℤ) : ℚ) / 100 else 0) := by
  refine ⟨fun hpp => ?_, fun hp0 => ?_, ?_⟩
  · have hpos : (0 < (curr - prev) / prev * 100) ↔ prev < curr := by
      rw [div_mul_eq_mul_div, lt_div_iff₀ hpp, zero_mul]
      constructor <;> intro h <;> nlinarith
    have hneg : ((curr - prev) / prev * 100 < 0) ↔ curr < prev := by
      rw [div_mul_eq_mul_div, div_lt_iff₀ hpp, zero_mul]
      constructor <;> intro h <;> nlinarith
    rw [summaryComparison_trend_def, if_pos hpp]
    rcases lt_trichotomy curr prev with h | h | h
    · have h1 : (curr - prev) / prev * 100 < 0 := hneg.mpr h
      have h2 : ¬ (0 < (curr - prev) / prev * 100) := by linarith
      rw [if_neg h2, if_pos h1]
      exact ⟨⟨fun hx => absurd hx (by decide), fun hx => absurd hx (lt_asymm h)⟩,
             ⟨fun _ => h, fun _ => rfl⟩,
             ⟨fun hx => absurd hx (by decide), fun hx => absurd hx (ne_of_lt h)⟩⟩
    · have h1 : (curr - prev) / prev * 100 = 0 := by rw [h]; ring
      have hlt : ¬ ((0:ℚ) < 0) := lt_irrefl 0
      rw [h1, if_neg hlt, if_neg hlt]
      exact ⟨⟨fun hx => absurd hx (by decide), fun hx => absurd hx (by simp [h])⟩,
             ⟨fun hx => absurd hx (by decide), fun hx => absurd hx (by simp [h])⟩,
             ⟨fun _ => h, fun _ => rfl⟩⟩
    · have h1 : 0 < (curr - prev) / prev * 100 := hpos.mpr h
      rw [if_pos h1]
      exact ⟨⟨fun _ => h, fun _ => rfl⟩,
             ⟨fun hx => absurd hx (by decide), fun hx => absurd hx (lt_asymm h)⟩,
             ⟨fun hx => absurd hx (by decide), fun hx => absurd hx (ne_of_gt h)⟩⟩
  · rw [summaryComparison_trend_def, hp0]
    norm_num
  · rw [summaryComparison_changePercentage_def]
    by_cases hpp : 0 < prev
    · rw [if_pos hpp, if_pos hpp]
    · rw [if_neg hpp, if_neg hpp]
      norm_num

/-- Witness for C9 (amended): current 150 against previous 100. -/
theorem summary_trend_follows_unrounded_sign_witness :
    ((0:ℚ) < 100 →
      (((summaryComparison 150 100).trend = "increase" ↔ (100:ℚ) < 150) ∧
       ((summaryComparison 150 100).trend = "decrease" ↔ (150:ℚ) < 100) ∧
       ((summaryComparison 150 100).trend = "stable" ↔ (150:ℚ) = 100))) ∧
    ((100:ℚ) = 0 → (summaryComparison 150 100).trend = "stable") ∧
    ((summaryComparison 150 100).changePercentage
      = if (0:ℚ) < 100 then ((round (((150:ℚ) - 100) / 100 * 100 * 100) : ℤ) : ℚ) / 100 else 0) :=
  summary_trend_follows_unrounded_sign 150 100 (by norm_num) (by norm_num)
